import Mathlib

/-!
Verification development for the music store assistant conversation
orchestration engine: the supervisor/worker routing state machine
(`src/graph.py`), the HITL interrupt/resume protocol exposed by the API
layer (`src/api.py`), and the customer-scoped support tools
(`src/tools/support.py`).

The embedding is shallow: graph nodes return message deltas merged by the
`add_messages` reducer, the compiled graph is a fuel-bounded interpreter
over the node/edge structure built in `create_graph`, and the API layer is
a pure state-transformer over the process-wide dictionaries
(`pending_approvals`, `rejected_responses`) plus the per-thread
checkpointer snapshots.  LLM outputs are supplied by an explicit oracle
(a list of events), since the reasoning capability is an external
collaborator.  SQL rendering of result rows (the string produced by
`db.run`) is modelled by an explicit rendering function; the read-only
music-catalog lookups are side-effect-free external queries carried as a
field of the database model.
-/

namespace MusicStore

/-! ## Messages and tool calls (data model) -/

/-- A single LLM-produced tool-call argument value (a JSON scalar). -/
inductive Arg
  | int (i : Int)
  | str (s : String)
deriving DecidableEq, Repr

/-- A requested tool call: `name`, `arguments` mapping, `call_id`. -/
structure ToolCall where
  id : String
  name : String
  args : List (String × Arg)
deriving DecidableEq, Repr

/-- Conversation message variants: `UserMessage`, `AIMessage` (with an
optional originating name and requested tool calls), and `ToolMessage`
(a tool result). -/
inductive Message
  | user (text : String)
  | ai (name : Option String) (content : String) (tool_calls : List ToolCall)
  | toolResult (call_id : String) (tool_name : String) (output : String)
deriving DecidableEq, Repr

/-- Look up an argument by key in an LLM-produced argument mapping. -/
def lookupArg : List (String × Arg) → String → Option Arg
  | [], _ => none
  | (k, v) :: rest, key => if k = key then some v else lookupArg rest key

/-- Extract the `invoice_id` integer argument, if present. -/
def argsInvoiceId (args : List (String × Arg)) : Option Int :=
  match lookupArg args "invoice_id" with
  | some (Arg.int i) => some i
  | _ => none

/-! ## Database and support tools (`src/tools/support.py`) -/

/-- A row of the `Invoice` table (the columns the support tools read). -/
structure Invoice where
  invoiceId : Int
  customerId : Int
  total : Int
deriving DecidableEq, Repr

/-- The data source behind `get_db()`.  The `Invoice` table is modelled
concretely because the refund ownership check filters it; the customer
profile query and the read-only music-catalog lookups are external
side-effect-free SQL queries (out of scope per the spec) carried as
rendering functions. -/
structure Db where
  invoices : List Invoice
  customerProfile : Int → String
  musicQuery : String → List (String × Arg) → String

/-- Rendering of one invoice row in a `db.run` result string. -/
def renderInvoiceRow (r : Invoice) : String :=
  "(" ++ toString r.invoiceId ++ ", " ++ toString r.total ++ ", " ++ toString r.customerId ++ ")"

/-- Rendering of the remaining rows (comma-separated). -/
def renderInvoiceRowsRest : List Invoice → String
  | [] => ""
  | r :: rs => ", " ++ renderInvoiceRow r ++ renderInvoiceRowsRest rs

/-- The string `db.run` returns for a list of invoice rows: the empty
string for an empty result set (langchain returns "" when the query
yields no rows), a row listing otherwise. -/
def renderInvoiceRows : List Invoice → String
  | [] => ""
  | r :: rs => renderInvoiceRow r ++ renderInvoiceRowsRest rs

/-- `_get_customer_id`: extract `customer_id` from the invocation config,
raising (modelled as `Except.error`) if absent. -/
def get_customer_id_from_config (cfg : Option Int) : Except String Int :=
  match cfg with
  | none => Except.error "customer_id not found in config - authentication required"
  | some c => Except.ok c

/-- `get_customer_info`: profile lookup scoped by the context customer. -/
def get_customer_info (db : Db) (cfg : Option Int) : Except String String :=
  match get_customer_id_from_config cfg with
  | Except.error e => Except.error e
  | Except.ok customer_id => Except.ok (db.customerProfile customer_id)

/-- `get_invoice`: a specific invoice (must belong to the context
customer) or the recent invoices of the customer.  Date ordering of the
history query is not modelled (the `Invoice` model carries no date); the
`LIMIT 10` is kept as `take 10`. -/
def get_invoice (db : Db) (cfg : Option Int) (invoice_id : Option Int) : Except String String :=
  match get_customer_id_from_config cfg with
  | Except.error e => Except.error e
  | Except.ok customer_id =>
    match invoice_id with
    | some inv =>
      let result := renderInvoiceRows
        (db.invoices.filter (fun r => r.customerId == customer_id && r.invoiceId == inv))
      if result = "" ∨ result = "[]" then
        Except.ok ("Invoice " ++ toString inv ++ " not found in your account.")
      else Except.ok result
    | none =>
      Except.ok (renderInvoiceRows
        ((db.invoices.filter (fun r => r.customerId == customer_id)).take 10))

/-- The ownership-error string `process_refund` returns for an invoice
that is not in the account of the acting customer. -/
def refund_not_found_message (invoice_id : Int) : String :=
  "Error: Invoice " ++ toString invoice_id ++ " not found in your account."

/-- The confirmation string `process_refund` returns on success. -/
def refund_confirmation_message (invoice_id : Int) : String :=
  "Refund initiated for Invoice #" ++ toString invoice_id ++
    ". The refund will be processed within 3-5 business days."

/-- `process_refund`: verifies at execution time that the invoice exists
AND belongs to the context customer (`WHERE InvoiceId = {invoice_id} AND
CustomerId = {customer_id}`); returns the ownership-error string when the
query result is empty, the confirmation string otherwise.  The
`customer_id` comes from the invocation config, never from the tool
arguments. -/
def process_refund (db : Db) (cfg : Option Int) (invoice_id : Int) : Except String String :=
  match get_customer_id_from_config cfg with
  | Except.error e => Except.error e
  | Except.ok customer_id =>
    let invoice_info := renderInvoiceRows
      (db.invoices.filter (fun r => r.invoiceId == invoice_id && r.customerId == customer_id))
    if invoice_info = "" ∨ invoice_info = "[]" then
      Except.ok (refund_not_found_message invoice_id)
    else
      Except.ok (refund_confirmation_message invoice_id)

/-! ## Tool registry and `ToolNode` dispatch -/

/-- Names of the read-only music-catalog tools (`MUSIC_TOOLS`). -/
def MUSIC_TOOL_NAMES : List String :=
  ["get_albums_by_artist", "get_tracks_by_artist", "check_for_songs",
   "get_artists_by_genre", "list_genres"]

/-- Names of the safe support tools (`SAFE_SUPPORT_TOOLS`). -/
def SAFE_SUPPORT_TOOL_NAMES : List String := ["get_customer_info", "get_invoice"]

/-- Names of the approval-gated support tools (`HITL_SUPPORT_TOOLS`). -/
def HITL_SUPPORT_TOOL_NAMES : List String := ["process_refund"]

/-- `HITL_TOOLS`: the tool names that trigger the approval gate. -/
def HITL_TOOLS : List String := ["process_refund"]

/-- The error message `ToolNode` produces for a call naming a tool that is
not bound to that node (library-level behavior; exact wording
abbreviated). -/
def invalid_tool_message (name : String) : String :=
  "Error: " ++ name ++ " is not a valid tool."

/-- Render a tool outcome as the `ToolMessage` content: `ToolNode` wraps a
raised exception into an error string (`handle_tool_errors`). -/
def renderToolResult : Except String String → String
  | Except.ok s => s
  | Except.error e => "Error: " ++ e

/-- Dispatch one requested call inside a `ToolNode` bound to `toolset`.
The support tools read the acting customer from the invocation config
`cfg`; the LLM-produced `args` mapping is consulted only for the declared schema arguments of the tool (`invoice_id`). -/
def execToolCall (toolset : List String) (db : Db) (cfg : Option Int) (call : ToolCall) : String :=
  if toolset.contains call.name then
    if call.name = "process_refund" then
      match argsInvoiceId call.args with
      | some inv => renderToolResult (process_refund db cfg inv)
      | none => "Error: invalid arguments"
    else if call.name = "get_invoice" then
      renderToolResult (get_invoice db cfg (argsInvoiceId call.args))
    else if call.name = "get_customer_info" then
      renderToolResult (get_customer_info db cfg)
    else
      db.musicQuery call.name call.args
  else invalid_tool_message call.name

/-- `ToolNode` execution: one `ToolMessage` per requested call, in order. -/
def execToolBatch (toolset : List String) (db : Db) (cfg : Option Int)
    (calls : List ToolCall) : List Message :=
  calls.map (fun c => Message.toolResult c.id c.name (execToolCall toolset db cfg c))

/-! ## Graph state machine (`src/graph.py`) -/

/-- The nodes added in `create_graph`. -/
inductive Node
  | supervisor
  | music_expert
  | support_rep
  | music_tools
  | support_tools
  | refund_tools
deriving DecidableEq, Repr

/-- The two-value routing enum of `RouteDecision` (`strict=True`
structured output: only these values parse). -/
inductive Route
  | music
  | support
deriving DecidableEq, Repr

/-- The string value of a parsed route. -/
def Route.toStr : Route → String
  | Route.music => "music"
  | Route.support => "support"

/-- `RouteDecision`: the structured routing output of the supervisor. -/
structure RouteDecision where
  reasoning : String
  route : Route
deriving DecidableEq, Repr

/-- One oracle event standing for an LLM invocation outcome: a supervisor
structured-output result (`none` = the parse failure exception branch) or
a worker model response. -/
inductive Ev
  | route (d : Option RouteDecision)
  | agent (name : Option String) (content : String) (tool_calls : List ToolCall)
deriving DecidableEq, Repr

/-- Result of executing one node: continue to another node, or reach
`END`. -/
inductive StepRes
  | goto (n : Node)
  | halt
deriving DecidableEq, Repr

/-- `route_supervisor`: conditional edge out of the supervisor, reading
`state.get("route", "support")`. -/
def route_supervisor (route : Option String) : String :=
  let r := route.getD "support"
  if r = "music" then "music_expert" else "support_rep"

/-- `should_continue_music`: tools or end, from the last message. -/
def should_continue_music (messages : List Message) : String :=
  match messages.getLast? with
  | some (Message.ai _ _ tcs) => if tcs.isEmpty then "__end__" else "music_tools"
  | _ => "__end__"

/-- `should_continue_support`: safe tools, the HITL approval gate, or end,
from the last message; any requested call naming a `HITL_TOOLS` member
sends the whole batch to the approval gate. -/
def should_continue_support (messages : List Message) : String :=
  match messages.getLast? with
  | some (Message.ai _ _ tcs) =>
    if tcs.isEmpty then "__end__"
    else if tcs.any (fun tc => HITL_TOOLS.contains tc.name) then "support_hitl"
    else "support_tools"
  | _ => "__end__"

/-- The conditional-edge mapping out of `supervisor` in `create_graph`
(music_expert or support_rep; the supervisor never reaches `END`). -/
def supervisor_edges (target : String) : Node :=
  if target = "music_expert" then Node.music_expert else Node.support_rep

/-- The conditional-edge mapping out of `music_expert`. -/
def music_edges (target : String) : StepRes :=
  if target = "music_tools" then StepRes.goto Node.music_tools else StepRes.halt

/-- The conditional-edge mapping out of `support_rep`: `support_hitl`
maps to the separate `refund_tools` node. -/
def support_edges (target : String) : StepRes :=
  if target = "support_tools" then StepRes.goto Node.support_tools
  else if target = "support_hitl" then StepRes.goto Node.refund_tools
  else StepRes.halt

/-- `interrupt_before=["refund_tools"]`: the graph is compiled (with a
checkpointer, as the API layer always does) to suspend before the
refund-tool node executes. -/
def interrupt_before : List Node := [Node.refund_tools]

/-- The tool calls `ToolNode` reads from the last message. -/
def lastToolCalls (messages : List Message) : List ToolCall :=
  match messages.getLast? with
  | some (Message.ai _ _ tcs) => tcs
  | _ => []

/-- Per-thread checkpointer snapshot: the channel values (`messages`,
`route`) and the next-step pointer (`none` when not interrupted). -/
structure GThread where
  messages : List Message
  route : Option String
  next : Option Node
deriving DecidableEq, Repr

/-- The snapshot of a thread never seen by the graph. -/
def emptyThread : GThread := ⟨[], none, none⟩

/-- Execute one node: the message delta it returns (merged by the
`add_messages` reducer), the updated `route` channel, the remaining
oracle events, and the outgoing edge evaluated on the updated state.
An oracle shortfall or mismatch at the supervisor is the structured-output
invocation failing, i.e. the `except` fallback branch; at a worker it is
an empty terminal reply. -/
def execNode (db : Db) (cfg : Option Int) (node : Node) (msgs : List Message)
    (route : Option String) (evs : List Ev) :
    List Message × Option String × List Ev × StepRes :=
  match node with
  | Node.supervisor =>
    match evs with
    | Ev.route (some d) :: rest =>
      let r := d.route.toStr
      ([Message.ai (some "supervisor") ("[Routing to " ++ r ++ ": " ++ d.reasoning ++ "]") []],
       some r, rest, StepRes.goto (supervisor_edges (route_supervisor (some r))))
    | Ev.route none :: rest =>
      ([Message.ai (some "supervisor") "[Routing to support: parsing error fallback]" []],
       some "support", rest,
       StepRes.goto (supervisor_edges (route_supervisor (some "support"))))
    | _ =>
      ([Message.ai (some "supervisor") "[Routing to support: parsing error fallback]" []],
       some "support", evs,
       StepRes.goto (supervisor_edges (route_supervisor (some "support"))))
  | Node.music_expert =>
    match evs with
    | Ev.agent nm c tcs :: rest =>
      ([Message.ai nm c tcs], route, rest,
       music_edges (should_continue_music (msgs ++ [Message.ai nm c tcs])))
    | _ =>
      ([Message.ai none "" []], route, evs,
       music_edges (should_continue_music (msgs ++ [Message.ai none "" []])))
  | Node.support_rep =>
    match evs with
    | Ev.agent nm c tcs :: rest =>
      ([Message.ai nm c tcs], route, rest,
       support_edges (should_continue_support (msgs ++ [Message.ai nm c tcs])))
    | _ =>
      ([Message.ai none "" []], route, evs,
       support_edges (should_continue_support (msgs ++ [Message.ai none "" []])))
  | Node.music_tools =>
    (execToolBatch MUSIC_TOOL_NAMES db cfg (lastToolCalls msgs), route, evs,
     StepRes.goto Node.music_expert)
  | Node.support_tools =>
    (execToolBatch SAFE_SUPPORT_TOOL_NAMES db cfg (lastToolCalls msgs), route, evs,
     StepRes.goto Node.support_rep)
  | Node.refund_tools =>
    (execToolBatch HITL_SUPPORT_TOOL_NAMES db cfg (lastToolCalls msgs), route, evs,
     StepRes.goto Node.support_rep)

/-- The execution loop of the compiled graph, starting by executing `node`:
run nodes along the edges until `END` (clear the next-step pointer) or
until the next node is in `interrupt_before` (suspend: persist a
non-empty next-step pointer without executing that node).  `fuel` bounds
the loop for totality only. -/
def runNodes (db : Db) (cfg : Option Int) : Nat → Node → GThread → List Ev → GThread
  | 0, _, st, _ => st
  | fuel + 1, node, st, evs =>
    let r := execNode db cfg node st.messages st.route evs
    let st' : GThread := ⟨st.messages ++ r.1, r.2.1, st.next⟩
    match r.2.2.2 with
    | StepRes.halt => { st' with next := none }
    | StepRes.goto n =>
      if interrupt_before.contains n then { st' with next := some n }
      else runNodes db cfg fuel n st' r.2.2.1

/-- `graph.invoke`: with an input message, append the user message and
start a fresh run at the entry point (`supervisor`), discarding any
pending task; with input `None` on an interrupted thread, resume by
executing exactly the suspended node and continuing; with input `None`
and no pending task, a no-op. -/
def graph_invoke (db : Db) (fuel : Nat) (customer_id : Int) (input : Option String)
    (st : GThread) (evs : List Ev) : GThread :=
  match input with
  | some m =>
    runNodes db (some customer_id) fuel Node.supervisor
      ⟨st.messages ++ [Message.user m], st.route, none⟩ evs
  | none =>
    match st.next with
    | some n => runNodes db (some customer_id) fuel n { st with next := none } evs
    | none => st

/-! ## API layer (`src/api.py`)

The process-wide dictionaries and the checkpointer are modelled as
association lists keyed by `thread_id`; `ainsert` replaces any previous
binding (dict assignment) and `aerase` removes one (`dict.pop`).
Response texts are kept as fixed constants; emoji, markdown decoration
and apostrophes in the source strings are transliterated to plain ASCII
(the claims concern only that the constants are fixed and replayed
identically). -/

/-- Association-list lookup keyed by `thread_id`. -/
def alookup {α : Type} : List (String × α) → String → Option α
  | [], _ => none
  | (k, v) :: rest, key => if k = key then some v else alookup rest key

/-- Dictionary deletion (`dict.pop(key, None)`). -/
def aerase {α : Type} : List (String × α) → String → List (String × α)
  | [], _ => []
  | (k', v) :: rest, k => if k' = k then aerase rest k else (k', v) :: aerase rest k

/-- Dictionary assignment (`d[key] = value`). -/
def ainsert {α : Type} (l : List (String × α)) (k : String) (v : α) : List (String × α) :=
  (k, v) :: aerase l k

/-- A Pending Approval Record (`pending_approvals[thread_id]`). -/
structure PendingApproval where
  thread_id : String
  customer_id : Int
  tool : String
deriving DecidableEq, Repr

/-- The mutable server state: per-thread checkpointer snapshots plus the
two process-wide dictionaries. -/
structure ApiState where
  threads : List (String × GThread)
  pending_approvals : List (String × PendingApproval)
  rejected_responses : List (String × String)
deriving DecidableEq, Repr

/-- The server state at process start. -/
def initialApiState : ApiState := ⟨[], [], []⟩

/-- Response body of the `/chat` endpoint. -/
structure ChatResponse where
  response : String
  thread_id : String
  requires_approval : Bool
  pending_tool : Option String
deriving DecidableEq, Repr

/-- Response body of the `/approve` and `/reject` endpoints. -/
structure ApproveResponse where
  response : String
  thread_id : String
deriving DecidableEq, Repr

/-- An `HTTPException` surfaced to the caller. -/
structure HttpError where
  status : Nat
  detail : String
deriving DecidableEq, Repr

/-- The canned warning returned when a turn arrives while an approval is
already pending. -/
def pending_warning_message : String :=
  "There is a pending refund request that needs approval. Please approve or reject it first."

/-- The canned reply returned when a turn suspends at the approval gate. -/
def approval_request_message : String :=
  "Refund Request Requires Approval. A supervisor needs to approve this action before it can be processed. Waiting for supervisor approval..."

/-- The fixed canned rejection reply. -/
def rejection_message : String :=
  "We are sorry, but we are unable to provide a refund for this order. If you believe this is an error, please contact our customer service team for further assistance."

/-- The status message while an approval is pending. -/
def waiting_message : String := "Waiting for supervisor approval..."

/-- The generic closing message for a stale interrupt. -/
def stale_completed_message : String :=
  "Your request has been processed. Is there anything else I can help you with?"

/-- The fallback when no assistant reply is found. -/
def default_response_message : String := "I am not sure how to help with that."

/-- `extract_assistant_response` over the reversed message list: the last
AI message that is not the routing annotation of the supervisor and has
non-empty content. -/
def extractFromRev : List Message → String
  | [] => default_response_message
  | Message.ai nm c _ :: rest =>
    if nm = some "supervisor" then extractFromRev rest
    else if c = "" then extractFromRev rest
    else c
  | _ :: rest => extractFromRev rest

/-- `extract_assistant_response`: last user-visible assistant reply. -/
def extract_assistant_response (messages : List Message) : String :=
  extractFromRev messages.reverse

/-- `check_pending_approval`: only the active tracking dictionary. -/
def check_pending_approval (st : ApiState) (thread_id : String) : Bool × Option String :=
  if (alookup st.pending_approvals thread_id).isSome then (true, some "process_refund")
  else (false, none)

/-- `check_graph_interrupted`: the next-step pointer of the checkpointer. -/
def check_graph_interrupted (st : ApiState) (thread_id : String) : Bool × Option String :=
  match alookup st.threads thread_id with
  | some g => if g.next.isSome then (true, some "process_refund") else (false, none)
  | none => (false, none)

/-- The `/chat` endpoint (`submit_turn`).  `raises` stands for the graph
invocation throwing (an upstream reasoning failure); in that case the
`HTTPException(500)` propagates and neither dictionary is touched
(checkpointer-internal partial progress is abstracted away — no claim
depends on it).  Otherwise: an already-pending thread short-circuits
without invoking the graph; a run that left the graph interrupted records
a Pending Approval Record and reports `requires_approval`. -/
def chat (db : Db) (fuel : Nat) (evs : List Ev) (raises : Bool) (st : ApiState)
    (thread_id : String) (customer_id : Int) (message : String) :
    (Except HttpError ChatResponse) × ApiState :=
  if (check_pending_approval st thread_id).1 then
    (Except.ok ⟨pending_warning_message, thread_id, true, some "process_refund"⟩, st)
  else if raises then
    (Except.error ⟨500, "graph invocation failed"⟩, st)
  else
    let g0 := (alookup st.threads thread_id).getD emptyThread
    let g1 := graph_invoke db fuel customer_id (some message) g0 evs
    let st1 : ApiState := { st with threads := ainsert st.threads thread_id g1 }
    if g1.next.isSome then
      (Except.ok ⟨approval_request_message, thread_id, true, some "process_refund"⟩,
       { st1 with pending_approvals :=
           ainsert st1.pending_approvals thread_id ⟨thread_id, customer_id, "process_refund"⟩ })
    else
      (Except.ok ⟨extract_assistant_response g1.messages, thread_id, false, none⟩, st1)

/-- The `/approve` endpoint (`resume_approval`): 400 when nothing is
pending; otherwise resume the graph (`invoke(None)` with the customer
context) and remove the Pending Approval Record only after the resumed
invocation returns; a raising invocation surfaces 500 and leaves the
record in place. -/
def approve_action (db : Db) (fuel : Nat) (evs : List Ev) (raises : Bool) (st : ApiState)
    (thread_id : String) (customer_id : Int) :
    (Except HttpError ApproveResponse) × ApiState :=
  if ¬ (check_pending_approval st thread_id).1 then
    (Except.error ⟨400, "No pending approval for this thread"⟩, st)
  else if raises then
    (Except.error ⟨500, "graph invocation failed"⟩, st)
  else
    let g0 := (alookup st.threads thread_id).getD emptyThread
    let g1 := graph_invoke db fuel customer_id none g0 evs
    let st1 : ApiState :=
      { st with threads := ainsert st.threads thread_id g1,
                pending_approvals := aerase st.pending_approvals thread_id }
    (Except.ok ⟨"Approved! " ++ extract_assistant_response g1.messages, thread_id⟩, st1)

/-- The `/reject` endpoint (`reject_approval`): 400 when nothing is
pending; otherwise remove the Pending Approval Record, do NOT resume the
graph (no synthetic user message is fed back), store the canned rejection
reply for the polling endpoint, and return it. -/
def reject_action (st : ApiState) (thread_id : String) (customer_id : Int) :
    (Except HttpError ApproveResponse) × ApiState :=
  if ¬ (check_pending_approval st thread_id).1 then
    (Except.error ⟨400, "No pending approval for this thread"⟩, st)
  else
    (Except.ok ⟨rejection_message, thread_id⟩,
     { st with pending_approvals := aerase st.pending_approvals thread_id,
               rejected_responses := ainsert st.rejected_responses thread_id rejection_message })

/-- The `/status` endpoint (`query_status`): rejection replay first, then
the active pending tracking, then the checkpointer (absent or empty
messages is an unknown thread; no next step is completed; a remaining
next step with no tracked record is a stale interrupt, reported completed
with a generic message).  Pure: it mutates nothing. -/
def get_thread_status (st : ApiState) (thread_id : String) (customer_id : Int) :
    String × String :=
  match alookup st.rejected_responses thread_id with
  | some m => ("completed", m)
  | none =>
    if (alookup st.pending_approvals thread_id).isSome then ("pending", waiting_message)
    else
      match alookup st.threads thread_id with
      | none => ("unknown", "Thread not found")
      | some g =>
        if g.messages = [] then ("unknown", "Thread not found")
        else if g.next = none then ("completed", extract_assistant_response g.messages)
        else ("completed", stale_completed_message)

/-- The states reachable from process start by any sequence of endpoint
invocations (with arbitrary oracles, fuel and invocation failures). -/
inductive Reach : ApiState → Prop
  | init : Reach initialApiState
  | chat (db : Db) (fuel : Nat) (evs : List Ev) (raises : Bool) (st : ApiState)
      (thread_id : String) (customer_id : Int) (message : String) :
      Reach st → Reach (chat db fuel evs raises st thread_id customer_id message).2
  | approve (db : Db) (fuel : Nat) (evs : List Ev) (raises : Bool) (st : ApiState)
      (thread_id : String) (customer_id : Int) :
      Reach st → Reach (approve_action db fuel evs raises st thread_id customer_id).2
  | reject (st : ApiState) (thread_id : String) (customer_id : Int) :
      Reach st → Reach (reject_action st thread_id customer_id).2

/-! ## Derived predicates -/

/-- A message that is not a genuine refund execution result: any tool
result named `process_refund` is the `ToolNode` invalid-tool error (the
refund body never ran to produce it). -/
def isRefundSafeMsg : Message → Prop
  | Message.toolResult _ n out => n = "process_refund" → out = invalid_tool_message "process_refund"
  | _ => True

/-- No genuine refund execution result appears in the list. -/
def RefundSafe (ms : List Message) : Prop := ∀ m ∈ ms, isRefundSafeMsg m

/-- Number of records stored under a key. -/
def keyCount {α : Type} : List (String × α) → String → Nat
  | [], _ => 0
  | (k', _) :: rest, k => (if k' = k then 1 else 0) + keyCount rest k

/-- Consistency of the server stores: every tracked thread snapshot has
at least one message, and every pending-approval record and rejection
record refers to a thread the checkpointer knows. -/
def StoreOK (st : ApiState) : Prop :=
  (∀ tid g, alookup st.threads tid = some g → g.messages ≠ [])
  ∧ (∀ tid r, alookup st.pending_approvals tid = some r → (alookup st.threads tid).isSome)
  ∧ (∀ tid m, alookup st.rejected_responses tid = some m → (alookup st.threads tid).isSome)

/-! ## Concrete executions used as witnesses and counterexamples -/

/-- A concrete database: invoice 143 belongs to customer 16, invoice 200
to customer 7. -/
def dbX : Db :=
  ⟨[⟨143, 16, 10⟩, ⟨200, 7, 5⟩], fun _ => "customer profile", fun _ _ => "catalog rows"⟩

/-- A refund request the support worker emits for invoice 143. -/
def refundCall : ToolCall := ⟨"call1", "process_refund", [("invoice_id", Arg.int 143)]⟩

/-- Supervisor routes to support. -/
def routeSupportEv : Ev := Ev.route (some ⟨"refund request", Route.support⟩)

/-- The support worker requests the refund tool. -/
def refundRequestEv : Ev := Ev.agent none "" [refundCall]

/-- Oracle for a turn that ends interrupted at the approval gate. -/
def interruptEvs : List Ev := [routeSupportEv, refundRequestEv]

/-- Server state after one turn that suspended at the approval gate. -/
def stInterrupted : ApiState :=
  (chat dbX 10 interruptEvs false initialApiState "t1" 16 "I want a refund for invoice 143").2

/-- Server state after the pending approval was rejected. -/
def stRejected : ApiState := (reject_action stInterrupted "t1" 16).2

/-- Server state after a second refund request on the rejected thread. -/
def stSecondRefund : ApiState :=
  (chat dbX 10 interruptEvs false stRejected "t1" 16 "Please refund invoice 143 again").2

/-! ## Association-list lemmas -/

theorem alookup_aerase {α : Type} (l : List (String × α)) (k k' : String) :
    alookup (aerase l k) k' = if k' = k then none else alookup l k' := by
  induction l with
  | nil => simp [aerase, alookup]
  | cons a t ih =>
    obtain ⟨ak, av⟩ := a
    by_cases hak : ak = k
    · rw [show aerase ((ak, av) :: t) k = aerase t k by simp [aerase, hak], ih]
      by_cases hkk : k' = k
      · simp [hkk]
      · have hne : ak ≠ k' := by rw [hak]; exact fun e => hkk e.symm
        simp [hkk, alookup, hne]
    · rw [show aerase ((ak, av) :: t) k = (ak, av) :: aerase t k by simp [aerase, hak]]
      by_cases hac : ak = k'
      · have hkk : ¬ k' = k := fun e => hak (hac.trans e)
        simp [alookup, hac, hkk]
      · simp [alookup, hac, ih]

theorem alookup_ainsert {α : Type} (l : List (String × α)) (k : String) (v : α) (k' : String) :
    alookup (ainsert l k v) k' = if k' = k then some v else alookup l k' := by
  by_cases h : k' = k
  · simp [ainsert, alookup, h]
  · have hne : k ≠ k' := fun e => h e.symm
    simp [ainsert, alookup, hne, alookup_aerase, h]

theorem keyCount_aerase_self {α : Type} (l : List (String × α)) (k : String) :
    keyCount (aerase l k) k = 0 := by
  induction l with
  | nil => rfl
  | cons a t ih =>
    obtain ⟨ak, av⟩ := a
    by_cases hak : ak = k
    · simpa [aerase, keyCount, hak] using ih
    · simpa [aerase, keyCount, hak] using ih

theorem keyCount_aerase_le {α : Type} (l : List (String × α)) (k k' : String) :
    keyCount (aerase l k) k' ≤ keyCount l k' := by
  induction l with
  | nil => exact Nat.le_refl _
  | cons a t ih =>
    obtain ⟨ak, av⟩ := a
    by_cases hak : ak = k
    · simp only [aerase, keyCount, hak, if_true]
      exact le_trans ih (Nat.le_add_left _ _)
    · simp only [aerase, keyCount, hak, if_false]
      omega

theorem keyCount_ainsert_le_one {α : Type} (l : List (String × α)) (k : String) (v : α)
    (h : ∀ t, keyCount l t ≤ 1) : ∀ t, keyCount (ainsert l k v) t ≤ 1 := by
  intro t
  by_cases ht : k = t
  · have h0 := keyCount_aerase_self l k
    subst ht
    simp [ainsert, keyCount, h0]
  · have hle := keyCount_aerase_le l k t
    have := h t
    simp only [ainsert, keyCount, ht, if_false]
    omega

/-! ## Graph-run lemmas -/

theorem runNodes_messages_extend (db : Db) (cfg : Option Int) :
    ∀ (fuel : Nat) (n : Node) (st : GThread) (evs : List Ev),
      ∃ t, (runNodes db cfg fuel n st evs).messages = st.messages ++ t := by
  intro fuel
  induction fuel with
  | zero => intro n st evs; exact ⟨[], by simp [runNodes]⟩
  | succ fuel ih =>
    intro n st evs
    unfold runNodes
    dsimp only
    split
    · exact ⟨(execNode db cfg n st.messages st.route evs).1, rfl⟩
    · split
      · exact ⟨(execNode db cfg n st.messages st.route evs).1, rfl⟩
      · obtain ⟨t, ht⟩ := ih _ ⟨st.messages ++ (execNode db cfg n st.messages st.route evs).1,
          (execNode db cfg n st.messages st.route evs).2.1, st.next⟩
          (execNode db cfg n st.messages st.route evs).2.2.1
        exact ⟨(execNode db cfg n st.messages st.route evs).1 ++ t, by
          rw [ht]; simp [List.append_assoc]⟩

theorem refundSafe_append {a b : List Message} (ha : RefundSafe a) (hb : RefundSafe b) :
    RefundSafe (a ++ b) := by
  intro m hm
  rcases List.mem_append.1 hm with h | h
  · exact ha m h
  · exact hb m h

theorem refundSafe_singleton_ai (nm : Option String) (c : String) (tcs : List ToolCall) :
    RefundSafe [Message.ai nm c tcs] := by
  intro m hm
  rcases List.mem_singleton.1 hm with rfl
  trivial

theorem refundSafe_user (m : String) : RefundSafe [Message.user m] := by
  intro x hx
  rcases List.mem_singleton.1 hx with rfl
  trivial

theorem execToolBatch_refund_safe (toolset : List String) (db : Db) (cfg : Option Int)
    (calls : List ToolCall) (h : toolset.contains "process_refund" = false) :
    RefundSafe (execToolBatch toolset db cfg calls) := by
  intro m hm
  simp only [execToolBatch, List.mem_map] at hm
  obtain ⟨c, _, rfl⟩ := hm
  show c.name = "process_refund" → _
  intro hname
  simp only [execToolCall, hname, h]
  simp

theorem execNode_delta_refund_safe (db : Db) (cfg : Option Int) (n : Node)
    (msgs : List Message) (route : Option String) (evs : List Ev)
    (hn : n ≠ Node.refund_tools) :
    RefundSafe (execNode db cfg n msgs route evs).1 := by
  cases n with
  | supervisor =>
    rcases evs with _ | ⟨⟨_ | d⟩ | ⟨nm, c, tcs⟩, rest⟩ <;>
      exact refundSafe_singleton_ai _ _ _
  | music_expert =>
    rcases evs with _ | ⟨⟨_ | d⟩ | ⟨nm, c, tcs⟩, rest⟩ <;>
      exact refundSafe_singleton_ai _ _ _
  | support_rep =>
    rcases evs with _ | ⟨⟨_ | d⟩ | ⟨nm, c, tcs⟩, rest⟩ <;>
      exact refundSafe_singleton_ai _ _ _
  | music_tools => exact execToolBatch_refund_safe _ _ _ _ (by decide)
  | support_tools => exact execToolBatch_refund_safe _ _ _ _ (by decide)
  | refund_tools => exact absurd rfl hn

theorem runNodes_refund_safe (db : Db) (cfg : Option Int) :
    ∀ (fuel : Nat) (n : Node) (st : GThread) (evs : List Ev),
      n ≠ Node.refund_tools → RefundSafe st.messages →
      RefundSafe (runNodes db cfg fuel n st evs).messages := by
  intro fuel
  induction fuel with
  | zero => intro n st evs _ hsafe; simpa [runNodes] using hsafe
  | succ fuel ih =>
    intro n st evs hn hsafe
    have hdelta := execNode_delta_refund_safe db cfg n st.messages st.route evs hn
    unfold runNodes
    dsimp only
    split
    · exact refundSafe_append hsafe hdelta
    · rename_i n' heq
      split
      · exact refundSafe_append hsafe hdelta
      · rename_i hint
        have hne : n' ≠ Node.refund_tools := by
          intro e; subst e; simp [interrupt_before] at hint
        exact ih n' _ _ hne (refundSafe_append hsafe hdelta)

theorem graph_invoke_some_messages (db : Db) (fuel : Nat) (cid : Int) (m : String)
    (st : GThread) (evs : List Ev) :
    ∃ t, (graph_invoke db fuel cid (some m) st evs).messages
      = st.messages ++ [Message.user m] ++ t := by
  obtain ⟨t, ht⟩ := runNodes_messages_extend db (some cid) fuel Node.supervisor
    ⟨st.messages ++ [Message.user m], st.route, none⟩ evs
  exact ⟨t, by simpa [graph_invoke] using ht⟩

theorem graph_invoke_some_ne_nil (db : Db) (fuel : Nat) (cid : Int) (m : String)
    (st : GThread) (evs : List Ev) :
    (graph_invoke db fuel cid (some m) st evs).messages ≠ [] := by
  obtain ⟨t, ht⟩ := graph_invoke_some_messages db fuel cid m st evs
  rw [ht]
  simp

theorem graph_invoke_none_ne_nil (db : Db) (fuel : Nat) (cid : Int)
    (st : GThread) (evs : List Ev) (h : st.messages ≠ []) :
    (graph_invoke db fuel cid none st evs).messages ≠ [] := by
  unfold graph_invoke
  cases hn : st.next with
  | none => exact h
  | some n =>
    obtain ⟨t, ht⟩ := runNodes_messages_extend db (some cid) fuel n { st with next := none } evs
    rw [ht]
    simp [h]

theorem graph_invoke_some_refund_safe (db : Db) (fuel : Nat) (cid : Int) (m : String)
    (st : GThread) (evs : List Ev) (hsafe : RefundSafe st.messages) :
    RefundSafe (graph_invoke db fuel cid (some m) st evs).messages := by
  unfold graph_invoke
  exact runNodes_refund_safe db (some cid) fuel Node.supervisor
    ⟨st.messages ++ [Message.user m], st.route, none⟩ evs (by decide)
    (refundSafe_append hsafe (refundSafe_user m))

/-! ## Server-state invariants over reachable states -/

theorem check_pending_true_iff (st : ApiState) (tid : String) :
    (check_pending_approval st tid).1 = true ↔ (alookup st.pending_approvals tid).isSome := by
  unfold check_pending_approval
  by_cases h : (alookup st.pending_approvals tid).isSome <;> simp [h]

theorem storeOK_update_thread (st : ApiState) (tid : String) (g : GThread)
    (h : StoreOK st) (hg : g.messages ≠ []) :
    StoreOK { st with threads := ainsert st.threads tid g } := by
  obtain ⟨hT, hP, hR⟩ := h
  refine ⟨?_, ?_, ?_⟩
  · intro tid' g' hl
    rw [show ({ st with threads := ainsert st.threads tid g } : ApiState).threads
      = ainsert st.threads tid g from rfl, alookup_ainsert] at hl
    by_cases he : tid' = tid
    · simp [he] at hl; exact hl ▸ hg
    · simp [he] at hl; exact hT tid' g' hl
  · intro tid' r hl
    have := hP tid' r hl
    rw [show ({ st with threads := ainsert st.threads tid g } : ApiState).threads
      = ainsert st.threads tid g from rfl, alookup_ainsert]
    by_cases he : tid' = tid <;> simp [he, this]
  · intro tid' m hl
    have := hR tid' m hl
    rw [show ({ st with threads := ainsert st.threads tid g } : ApiState).threads
      = ainsert st.threads tid g from rfl, alookup_ainsert]
    by_cases he : tid' = tid <;> simp [he, this]

theorem storeOK_add_pending (st : ApiState) (tid : String) (r : PendingApproval)
    (h : StoreOK st) (hg : (alookup st.threads tid).isSome) :
    StoreOK { st with pending_approvals := ainsert st.pending_approvals tid r } := by
  obtain ⟨hT, hP, hR⟩ := h
  refine ⟨hT, ?_, hR⟩
  intro tid' r' hl
  rw [show ({ st with pending_approvals := ainsert st.pending_approvals tid r } : ApiState).pending_approvals
    = ainsert st.pending_approvals tid r from rfl, alookup_ainsert] at hl
  by_cases he : tid' = tid
  · exact he ▸ hg
  · simp [he] at hl; exact hP tid' r' hl

theorem storeOK_erase_pending (st : ApiState) (tid : String) (h : StoreOK st) :
    StoreOK { st with pending_approvals := aerase st.pending_approvals tid } := by
  obtain ⟨hT, hP, hR⟩ := h
  refine ⟨hT, ?_, hR⟩
  intro tid' r' hl
  rw [show ({ st with pending_approvals := aerase st.pending_approvals tid } : ApiState).pending_approvals
    = aerase st.pending_approvals tid from rfl, alookup_aerase] at hl
  by_cases he : tid' = tid
  · simp [he] at hl
  · simp [he] at hl; exact hP tid' r' hl

theorem storeOK_add_rejected (st : ApiState) (tid : String) (m : String)
    (h : StoreOK st) (hg : (alookup st.threads tid).isSome) :
    StoreOK { st with rejected_responses := ainsert st.rejected_responses tid m } := by
  obtain ⟨hT, hP, hR⟩ := h
  refine ⟨hT, hP, ?_⟩
  intro tid' m' hl
  rw [show ({ st with rejected_responses := ainsert st.rejected_responses tid m } : ApiState).rejected_responses
    = ainsert st.rejected_responses tid m from rfl, alookup_ainsert] at hl
  by_cases he : tid' = tid
  · exact he ▸ hg
  · simp [he] at hl; exact hR tid' m' hl

theorem reach_storeOK {st : ApiState} (h : Reach st) : StoreOK st := by
  induction h with
  | init =>
    refine ⟨?_, ?_, ?_⟩ <;> intro tid x hl <;> simp [initialApiState, alookup] at hl
  | chat db fuel evs raises st tid cid m _ ih =>
    unfold chat
    split
    · exact ih
    · split
      · exact ih
      · dsimp only
        split
        · refine storeOK_add_pending _ tid _
            (storeOK_update_thread st tid _ ih (graph_invoke_some_ne_nil db fuel cid m _ evs)) ?_
          show (alookup (ainsert st.threads tid _) tid).isSome
          rw [alookup_ainsert]
          simp
        · exact storeOK_update_thread st tid _ ih (graph_invoke_some_ne_nil db fuel cid m _ evs)
  | approve db fuel evs raises st tid cid _ ih =>
    unfold approve_action
    split
    · exact ih
    · split
      · exact ih
      · rename_i hpend _
        have hps : (alookup st.pending_approvals tid).isSome := by
          rcases Decidable.not_not.mp hpend with h2
          exact (check_pending_true_iff st tid).mp h2
        obtain ⟨r, hr⟩ := Option.isSome_iff_exists.mp hps
        have hth : (alookup st.threads tid).isSome := ih.2.1 tid r hr
        obtain ⟨g, hgl⟩ := Option.isSome_iff_exists.mp hth
        have hgne : g.messages ≠ [] := ih.1 tid g hgl
        have hg0 : ((alookup st.threads tid).getD emptyThread) = g := by rw [hgl]; rfl
        have h1 : (graph_invoke db fuel cid none ((alookup st.threads tid).getD emptyThread) evs).messages ≠ [] := by
          rw [hg0]; exact graph_invoke_none_ne_nil db fuel cid g evs hgne
        exact storeOK_erase_pending _ tid (storeOK_update_thread st tid _ ih h1)
  | reject st tid cid _ ih =>
    unfold reject_action
    split
    · exact ih
    · rename_i hpend
      have hps : (alookup st.pending_approvals tid).isSome := by
        rcases Decidable.not_not.mp hpend with h2
        exact (check_pending_true_iff st tid).mp h2
      obtain ⟨r, hr⟩ := Option.isSome_iff_exists.mp hps
      have hth : (alookup st.threads tid).isSome := ih.2.1 tid r hr
      have h1 := storeOK_erase_pending st tid ih
      exact storeOK_add_rejected _ tid rejection_message h1 hth

theorem reach_pending_atMostOne {st : ApiState} (h : Reach st) :
    ∀ tid, keyCount st.pending_approvals tid ≤ 1 := by
  induction h with
  | init => intro tid; simp [initialApiState, keyCount]
  | chat db fuel evs raises st tid cid m _ ih =>
    unfold chat
    split
    · exact ih
    · split
      · exact ih
      · dsimp only
        split
        · exact keyCount_ainsert_le_one _ tid _ ih
        · exact ih
  | approve db fuel evs raises st tid cid _ ih =>
    unfold approve_action
    split
    · exact ih
    · split
      · exact ih
      · intro t; exact le_trans (keyCount_aerase_le _ tid t) (ih t)
  | reject st tid cid _ ih =>
    unfold reject_action
    split
    · exact ih
    · intro t; exact le_trans (keyCount_aerase_le _ tid t) (ih t)

/-! ## Claim theorems -/

theorem lookupArg_append_single_ne (args : List (String × Arg)) (k' : String) (v : Arg)
    (key : String) (h : k' ≠ key) :
    lookupArg (args ++ [(k', v)]) key = lookupArg args key := by
  induction args with
  | nil => simp [lookupArg, h]
  | cons a t ih =>
    obtain ⟨ak, av⟩ := a
    by_cases hk : ak = key <;> simp [lookupArg, hk, ih]

/-- C2: `process_refund` takes the acting `customer_id` from the
invocation context, never from the LLM-produced arguments: executed with
context customer `B` against invoices that all belong to `A ≠ B` wherever
the invoice id matches, it returns the ownership-error string (an
`Except.ok` tool result, not a raised fault); and the dispatched result is
unchanged by any `customer_id` the tool-call arguments claim. -/
theorem process_refund_cross_customer_isolation (db : Db) (A B inv : Int)
    (hOwned : ∀ r ∈ db.invoices, r.invoiceId = inv → r.customerId = A)
    (hNe : A ≠ B) :
    process_refund db (some B) inv = Except.ok (refund_not_found_message inv)
    ∧ ∀ (id1 : String) (args : List (String × Arg)) (claimed : Int),
        execToolCall HITL_SUPPORT_TOOL_NAMES db (some B)
            ⟨id1, "process_refund", args ++ [("customer_id", Arg.int claimed)]⟩
          = execToolCall HITL_SUPPORT_TOOL_NAMES db (some B) ⟨id1, "process_refund", args⟩ := by
  constructor
  · have hfil : db.invoices.filter (fun r => r.invoiceId == inv && r.customerId == B) = [] := by
      rw [List.filter_eq_nil_iff]
      intro r hr
      by_cases h1 : r.invoiceId = inv
      · have h2 := hOwned r hr h1
        simp [h1, h2]
        intro hAB
        exact absurd hAB hNe
      · simp [h1]
    simp [process_refund, get_customer_id_from_config, hfil, renderInvoiceRows]
  · intro id1 args claimed
    have harg : argsInvoiceId (args ++ [("customer_id", Arg.int claimed)]) = argsInvoiceId args := by
      unfold argsInvoiceId
      rw [lookupArg_append_single_ne args "customer_id" (Arg.int claimed) "invoice_id" (by decide)]
    simp [execToolCall, harg]

/-- C2 witness: invoice 143 belongs to customer 16; executing with context
customer 7 yields the ownership-error string. -/
theorem process_refund_cross_customer_isolation_witness :
    (∀ r ∈ dbX.invoices, r.invoiceId = 143 → r.customerId = 16)
    ∧ (16 : Int) ≠ 7
    ∧ process_refund dbX (some 7) 143 = Except.ok (refund_not_found_message 143) :=
  ⟨by decide, by decide,
   (process_refund_cross_customer_isolation dbX 16 7 143 (by decide) (by decide)).1⟩

/-- C6: when the structured routing output of the supervisor cannot be parsed,
the turn is not aborted: the node returns normally, appends exactly one
supervisor-tagged synthetic rationale message, records route `support`,
and execution continues to the support worker. -/
theorem supervisor_parse_failure_defaults_to_support (db : Db) (cfg : Option Int)
    (msgs : List Message) (route : Option String) (evs : List Ev) :
    execNode db cfg Node.supervisor msgs route (Ev.route none :: evs)
      = ([Message.ai (some "supervisor") "[Routing to support: parsing error fallback]" []],
         some "support", evs, StepRes.goto Node.support_rep) := by
  rfl

/-- C7: every turn enters the state machine at the supervisor; the
conditional edge of the supervisor reaches the music worker exactly when the
recorded route is `music` and the support worker in every other case
(including a missing route); and the supervisor step is always a goto
to one of the two workers, never a turn termination. -/
theorem supervisor_routing_total (db : Db) (fuel : Nat) (cid : Int) (m : String)
    (st : GThread) (evs : List Ev) (r : Option String) :
    graph_invoke db fuel cid (some m) st evs
      = runNodes db (some cid) fuel Node.supervisor
          ⟨st.messages ++ [Message.user m], st.route, none⟩ evs
    ∧ (supervisor_edges (route_supervisor r) = Node.music_expert ↔ r = some "music")
    ∧ (supervisor_edges (route_supervisor r) = Node.support_rep ↔ r ≠ some "music")
    ∧ ∀ (msgs : List Message) (route : Option String) (evs' : List Ev),
        (execNode db (some cid) Node.supervisor msgs route evs').2.2.2 = StepRes.goto Node.music_expert
        ∨ (execNode db (some cid) Node.supervisor msgs route evs').2.2.2 = StepRes.goto Node.support_rep := by
  refine ⟨rfl, ?_, ?_, ?_⟩
  · cases r with
    | none => simp [route_supervisor, supervisor_edges]
    | some s =>
      by_cases hs : s = "music"
      · simp [route_supervisor, supervisor_edges, hs]
      · simp [route_supervisor, supervisor_edges, hs]
  · cases r with
    | none => simp [route_supervisor, supervisor_edges]
    | some s =>
      by_cases hs : s = "music"
      · simp [route_supervisor, supervisor_edges, hs]
      · simp [route_supervisor, supervisor_edges, hs]
  · intro msgs route evs'
    rcases evs' with _ | ⟨⟨_ | d⟩ | ⟨nm, c, tcs⟩, rest⟩
    · right; rfl
    · right; rfl
    · obtain ⟨reas, rt⟩ := d
      cases rt
      · left; rfl
      · right; rfl
    · right; rfl

/-- C9: approving or rejecting a thread with no outstanding pending
approval fails with the 400 client error and mutates nothing: the server
state is returned unchanged and the graph is never invoked. -/
theorem approve_reject_require_pending (db : Db) (fuel : Nat) (evs : List Ev) (raises : Bool)
    (st : ApiState) (tid : String) (cid : Int)
    (h : alookup st.pending_approvals tid = none) :
    approve_action db fuel evs raises st tid cid
      = (Except.error ⟨400, "No pending approval for this thread"⟩, st)
    ∧ reject_action st tid cid
      = (Except.error ⟨400, "No pending approval for this thread"⟩, st) := by
  have hc : (check_pending_approval st tid).1 = false := by
    simp [check_pending_approval, h]
  constructor
  · simp [approve_action, hc]
  · simp [reject_action, hc]

/-- C9 witness: at process start no approval is pending for any thread. -/
theorem approve_reject_require_pending_witness :
    alookup initialApiState.pending_approvals "t1" = none
    ∧ approve_action dbX 10 [] false initialApiState "t1" 16
        = (Except.error ⟨400, "No pending approval for this thread"⟩, initialApiState) :=
  ⟨rfl, (approve_reject_require_pending dbX 10 [] false initialApiState "t1" 16 rfl).1⟩

/-- C10: when resuming an approved thread fails, the 500 internal error is
surfaced and the server state — in particular the Pending Approval Record
— is untouched, so the approval can be retried; the record is removed
exactly when the resumed execution of a retry completes successfully. -/
theorem approve_failure_preserves_pending (db : Db) (fuel : Nat) (evs : List Ev)
    (st : ApiState) (tid : String) (cid : Int)
    (hP : (alookup st.pending_approvals tid).isSome) :
    approve_action db fuel evs true st tid cid
      = (Except.error ⟨500, "graph invocation failed"⟩, st)
    ∧ (approve_action db fuel evs false st tid cid).1.isOk = true
    ∧ alookup (approve_action db fuel evs false st tid cid).2.pending_approvals tid = none := by
  have hc : (check_pending_approval st tid).1 = true := (check_pending_true_iff st tid).mpr hP
  refine ⟨?_, ?_, ?_⟩
  · simp [approve_action, hc]
  · simp [approve_action, hc, Except.isOk, Except.toBool]
  · have h2 : (approve_action db fuel evs false st tid cid).2.pending_approvals
        = aerase st.pending_approvals tid := by
      simp [approve_action, hc]
    rw [h2, alookup_aerase]
    simp

/-- C10 witness: on the concrete interrupted thread, a failing resume
surfaces the 500 error and leaves the whole server state unchanged. -/
theorem approve_failure_preserves_pending_witness :
    (alookup stInterrupted.pending_approvals "t1").isSome = true
    ∧ approve_action dbX 10 [] true stInterrupted "t1" 16
        = (Except.error ⟨500, "graph invocation failed"⟩, stInterrupted) :=
  ⟨by decide,
   (approve_failure_preserves_pending dbX 10 [] stInterrupted "t1" 16 (by decide)).1⟩

/-- C8: while a Pending Approval Record is outstanding, `chat` does not
invoke the state machine at all: it returns the `requires_approval`
warning and the whole server state — message sequences, next-step
pointers, and the record — is returned unchanged; and on any reachable
state a thread has at most one outstanding record. -/
theorem chat_deferred_while_pending (db : Db) (fuel : Nat) (evs : List Ev) (raises : Bool)
    (st : ApiState) (tid : String) (cid : Int) (m : String)
    (hR : Reach st) (hP : (alookup st.pending_approvals tid).isSome) :
    chat db fuel evs raises st tid cid m
      = (Except.ok ⟨pending_warning_message, tid, true, some "process_refund"⟩, st)
    ∧ keyCount st.pending_approvals tid ≤ 1 := by
  have hc : (check_pending_approval st tid).1 = true := (check_pending_true_iff st tid).mpr hP
  exact ⟨by simp [chat, hc], reach_pending_atMostOne hR tid⟩

/-- C8 witness: a second turn on the concretely interrupted thread is
deferred with the warning and the state is unchanged. -/
theorem chat_deferred_while_pending_witness :
    (alookup stInterrupted.pending_approvals "t1").isSome = true
    ∧ chat dbX 10 interruptEvs false stInterrupted "t1" 16 "Also refund invoice 200"
        = (Except.ok ⟨pending_warning_message, "t1", true, some "process_refund"⟩, stInterrupted) :=
  ⟨by decide,
   (chat_deferred_while_pending dbX 10 interruptEvs false stInterrupted "t1" 16
      "Also refund invoice 200"
      (Reach.chat dbX 10 interruptEvs false initialApiState "t1" 16
        "I want a refund for invoice 143" Reach.init)
      (by decide)).1⟩

/-- C4: rejecting a pending approval never resumes the graph (the thread
snapshots — message sequences and deferred tool batches — are untouched,
so the refund tool and its ownership check never run and no synthetic
user message enters the transcript); it removes the Pending Approval
Record, returns the fixed canned rejection reply, records it keyed by the
thread, and `query_status` (a pure function of the resulting state)
returns `completed` with that same canned message. -/
theorem reject_never_executes_and_replays (st : ApiState) (tid : String) (cid cid' : Int)
    (hP : (alookup st.pending_approvals tid).isSome) :
    reject_action st tid cid
      = (Except.ok ⟨rejection_message, tid⟩,
         { st with pending_approvals := aerase st.pending_approvals tid,
                   rejected_responses := ainsert st.rejected_responses tid rejection_message })
    ∧ (reject_action st tid cid).2.threads = st.threads
    ∧ alookup (reject_action st tid cid).2.pending_approvals tid = none
    ∧ get_thread_status (reject_action st tid cid).2 tid cid' = ("completed", rejection_message) := by
  have hc : (check_pending_approval st tid).1 = true := (check_pending_true_iff st tid).mpr hP
  have h1 : reject_action st tid cid
      = (Except.ok ⟨rejection_message, tid⟩,
         { st with pending_approvals := aerase st.pending_approvals tid,
                   rejected_responses := ainsert st.rejected_responses tid rejection_message }) := by
    simp [reject_action, hc]
  refine ⟨h1, by rw [h1], ?_, ?_⟩
  · rw [h1]
    show alookup (aerase st.pending_approvals tid) tid = none
    rw [alookup_aerase]
    simp
  · rw [h1]
    have h2 : alookup (ainsert st.rejected_responses tid rejection_message) tid
        = some rejection_message := by rw [alookup_ainsert]; simp
    simp [get_thread_status, h2]

/-- C4 witness: rejecting the concretely interrupted thread yields the
canned reply, clears the record, leaves the graph snapshot untouched, and
the status poll replays the same canned message as `completed`. -/
theorem reject_never_executes_and_replays_witness :
    (alookup stInterrupted.pending_approvals "t1").isSome = true
    ∧ (reject_action stInterrupted "t1" 16).2.threads = stInterrupted.threads
    ∧ get_thread_status (reject_action stInterrupted "t1" 16).2 "t1" 16
        = ("completed", rejection_message) := by
  have h := reject_never_executes_and_replays stInterrupted "t1" 16 16 (by decide)
  exact ⟨by decide, h.2.1, h.2.2.2⟩

theorem getLast?_append_singleton {α : Type} (l : List α) (a : α) :
    (l ++ [a]).getLast? = some a := by
  simp

theorem lastToolCalls_append (M : List Message) (nm : Option String) (c : String)
    (tcs : List ToolCall) : lastToolCalls (M ++ [Message.ai nm c tcs]) = tcs := by
  unfold lastToolCalls
  rw [getLast?_append_singleton]

theorem runNodes_refund_step (db : Db) (cfg : Option Int) (fuel : Nat)
    (M : List Message) (r : Option String) (evs : List Ev) :
    runNodes db cfg (fuel + 1) Node.refund_tools ⟨M, r, none⟩ evs
      = runNodes db cfg fuel Node.support_rep
          ⟨M ++ execToolBatch HITL_SUPPORT_TOOL_NAMES db cfg (lastToolCalls M), r, none⟩ evs := by
  conv_lhs => unfold runNodes
  dsimp only [execNode]
  rw [if_neg (by decide : ¬ (interrupt_before.contains Node.support_rep = true))]

theorem runNodes_support_halt (db : Db) (cfg : Option Int) (fuel : Nat)
    (M : List Message) (r : Option String) (nm' : Option String) (c' : String)
    (evs : List Ev) :
    runNodes db cfg (fuel + 1) Node.support_rep ⟨M, r, none⟩ (Ev.agent nm' c' [] :: evs)
      = ⟨M ++ [Message.ai nm' c' []], r, none⟩ := by
  have hsc : should_continue_support (M ++ [Message.ai nm' c' []]) = "__end__" := by
    unfold should_continue_support
    rw [getLast?_append_singleton]
    simp
  unfold runNodes
  dsimp only [execNode]
  rw [hsc]
  rfl

/-- C1: when the output of the support worker carries tool-call requests and
any of them names a requires-approval tool, the machine routes the whole
batch to the approval gate and suspends there before any call executes
(only the worker message is appended and the thread persists a
next-step pointer at the refund-tool node); resuming executes exactly the
deferred batch and returns control to the support worker; and a fresh
turn that carries no resume signal can never produce a genuine refund
execution result. -/
theorem hitl_batch_suspends_until_resume (db : Db) (cid : Int) (fuel : Nat)
    (st : GThread) (evs evs' : List Ev) (nm nm' : Option String) (c c' : String)
    (batch : List ToolCall)
    (hH : batch.any (fun tc => HITL_TOOLS.contains tc.name) = true)
    (hSafe : RefundSafe st.messages) :
    should_continue_support (st.messages ++ [Message.ai nm c batch]) = "support_hitl"
    ∧ runNodes db (some cid) (fuel + 1) Node.support_rep st (Ev.agent nm c batch :: evs)
        = ⟨st.messages ++ [Message.ai nm c batch], st.route, some Node.refund_tools⟩
    ∧ graph_invoke db (fuel + 2) cid none
        ⟨st.messages ++ [Message.ai nm c batch], st.route, some Node.refund_tools⟩
        (Ev.agent nm' c' [] :: evs')
        = ⟨(st.messages ++ [Message.ai nm c batch]
            ++ execToolBatch HITL_SUPPORT_TOOL_NAMES db (some cid) batch)
            ++ [Message.ai nm' c' []], st.route, none⟩
    ∧ ∀ (m : String), RefundSafe (graph_invoke db fuel cid (some m) st evs).messages := by
  have hne : batch.isEmpty = false := by
    cases batch with
    | nil => simp at hH
    | cons x xs => rfl
  have hH2 : ∃ x ∈ batch, x.name ∈ HITL_TOOLS := by simpa using hH
  have hsc : should_continue_support (st.messages ++ [Message.ai nm c batch])
      = "support_hitl" := by
    unfold should_continue_support
    rw [getLast?_append_singleton]
    simp [hne, hH2]
  have hexec : execNode db (some cid) Node.support_rep st.messages st.route
      (Ev.agent nm c batch :: evs)
      = ([Message.ai nm c batch], st.route, evs, StepRes.goto Node.refund_tools) := by
    simp [execNode, hsc, support_edges]
  refine ⟨hsc, ?_, ?_, ?_⟩
  · show runNodes db (some cid) (fuel + 1) Node.support_rep st (Ev.agent nm c batch :: evs) = _
    unfold runNodes
    dsimp only
    rw [hexec]
    simp [interrupt_before]
  · show graph_invoke db (fuel + 2) cid none _ _ = _
    unfold graph_invoke
    dsimp only
    rw [show fuel + 2 = (fuel + 1) + 1 from rfl]
    rw [runNodes_refund_step db (some cid) (fuel + 1)
      (st.messages ++ [Message.ai nm c batch]) st.route (Ev.agent nm' c' [] :: evs')]
    rw [lastToolCalls_append]
    rw [runNodes_support_halt db (some cid) fuel
      ((st.messages ++ [Message.ai nm c batch])
        ++ execToolBatch HITL_SUPPORT_TOOL_NAMES db (some cid) batch)
      st.route nm' c' evs']
  · intro m
    exact graph_invoke_some_refund_safe db fuel cid m st evs hSafe

/-- C1 witness: a concrete batch containing the refund call suspends at
the approval gate with only the worker message appended. -/
theorem hitl_batch_suspends_until_resume_witness :
    ([refundCall].any (fun tc => HITL_TOOLS.contains tc.name)) = true
    ∧ runNodes dbX (some 16) 1 Node.support_rep ⟨[], none, none⟩ [refundRequestEv]
        = ⟨[Message.ai none "" [refundCall]], none, some Node.refund_tools⟩ := by
  have h := hitl_batch_suspends_until_resume dbX 16 0 ⟨[], none, none⟩ [] [] none none "" "done"
    [refundCall] (by decide) (by simp [RefundSafe])
  exact ⟨by decide, h.2.1⟩

/-- C3 counterexample: after a rejection the thread is no longer awaiting
approval (its Pending Approval Record is gone) yet its `next_step`
pointer is still non-empty — the reachable state `stRejected` violates
the claimed iff between a non-empty `next_step` and a pending pause. -/
theorem next_step_iff_pending_counterexample :
    Reach stRejected
    ∧ (alookup stRejected.threads "t1").map GThread.next = some (some Node.refund_tools)
    ∧ alookup stRejected.pending_approvals "t1" = none := by
  refine ⟨?_, by decide, by decide⟩
  exact Reach.reject stInterrupted "t1" 16
    (Reach.chat dbX 10 interruptEvs false initialApiState "t1" 16
      "I want a refund for invoice 143" Reach.init)

/-- C3 (amended): suspension at the approval gate persists a non-empty
next-step pointer together with a Pending Approval Record; approval and
rejection both remove the record, but only approval resumes the graph —
rejection leaves the thread snapshot (and hence its stale non-empty
next-step pointer) untouched. -/
theorem next_step_pending_amended (db : Db) (fuel : Nat) (evs : List Ev)
    (st : ApiState) (tid : String) (cid : Int) (m : String) :
    ((check_pending_approval st tid).1 = false →
      (graph_invoke db fuel cid (some m) ((alookup st.threads tid).getD emptyThread) evs).next ≠ none →
      alookup (chat db fuel evs false st tid cid m).2.pending_approvals tid
          = some ⟨tid, cid, "process_refund"⟩
      ∧ alookup (chat db fuel evs false st tid cid m).2.threads tid
          = some (graph_invoke db fuel cid (some m) ((alookup st.threads tid).getD emptyThread) evs))
    ∧ (∀ resp st', approve_action db fuel evs false st tid cid = (Except.ok resp, st') →
        alookup st'.pending_approvals tid = none)
    ∧ (∀ resp st', reject_action st tid cid = (Except.ok resp, st') →
        alookup st'.pending_approvals tid = none ∧ st'.threads = st.threads) := by
  refine ⟨?_, ?_, ?_⟩
  · intro hnp hint
    have hsome : (graph_invoke db fuel cid (some m)
        ((alookup st.threads tid).getD emptyThread) evs).next.isSome = true :=
      Option.isSome_iff_ne_none.mpr hint
    constructor
    · have he : (chat db fuel evs false st tid cid m).2.pending_approvals
          = ainsert st.pending_approvals tid ⟨tid, cid, "process_refund"⟩ := by
        simp [chat, hnp, hsome]
      rw [he, alookup_ainsert]
      simp
    · have he : (chat db fuel evs false st tid cid m).2.threads
          = ainsert st.threads tid (graph_invoke db fuel cid (some m)
              ((alookup st.threads tid).getD emptyThread) evs) := by
        simp [chat, hnp, hsome]
      rw [he, alookup_ainsert]
      simp
  · intro resp st' h
    by_cases hp : (check_pending_approval st tid).1 = true
    · have h2 : st'.pending_approvals = aerase st.pending_approvals tid := by
        have h3 := congrArg (fun p => p.2.pending_approvals) h
        simpa [approve_action, hp] using h3.symm
      rw [h2, alookup_aerase]
      simp
    · have hpf : (check_pending_approval st tid).1 = false := by
        revert hp
        cases (check_pending_approval st tid).1 <;> simp
      have he : approve_action db fuel evs false st tid cid
          = (Except.error ⟨400, "No pending approval for this thread"⟩, st) := by
        simp [approve_action, hpf]
      rw [he] at h
      exact absurd (congrArg Prod.fst h) (by simp)
  · intro resp st' h
    by_cases hp : (check_pending_approval st tid).1 = true
    · constructor
      · have h2 : st'.pending_approvals = aerase st.pending_approvals tid := by
          have h3 := congrArg (fun p => p.2.pending_approvals) h
          simpa [reject_action, hp] using h3.symm
        rw [h2, alookup_aerase]
        simp
      · have h3 := congrArg (fun p => p.2.threads) h
        simpa [reject_action, hp] using h3.symm
    · have hpf : (check_pending_approval st tid).1 = false := by
        revert hp
        cases (check_pending_approval st tid).1 <;> simp
      have he : reject_action st tid cid
          = (Except.error ⟨400, "No pending approval for this thread"⟩, st) := by
        simp [reject_action, hpf]
      rw [he] at h
      exact absurd (congrArg Prod.fst h) (by simp)

/-- C3 (amended) witness: rejecting the concrete interrupted thread
removes the record while leaving the thread snapshots untouched. -/
theorem next_step_pending_amended_witness :
    alookup stRejected.pending_approvals "t1" = none
    ∧ stRejected.threads = stInterrupted.threads :=
  (next_step_pending_amended dbX 10 interruptEvs stInterrupted "t1" 16 "x").2.2
    ⟨rejection_message, "t1"⟩ stRejected rfl

set_option maxRecDepth 8192 in
/-- C5 counterexample: in the reachable state after
interrupt → reject → second refund request, an approval record is
outstanding for the thread, yet `query_status` reports `completed` (with
the old stored rejection message) instead of `pending` — refuting the
claim that `pending` is returned exactly when a record is outstanding. -/
theorem status_pending_claim_counterexample :
    Reach stSecondRefund
    ∧ (alookup stSecondRefund.pending_approvals "t1").isSome = true
    ∧ get_thread_status stSecondRefund "t1" 16 = ("completed", rejection_message) := by
  refine ⟨?_, by decide, by decide⟩
  exact Reach.chat dbX 10 interruptEvs false stRejected "t1" 16
    "Please refund invoice 143 again"
    (Reach.reject stInterrupted "t1" 16
      (Reach.chat dbX 10 interruptEvs false initialApiState "t1" 16
        "I want a refund for invoice 143" Reach.init))

/-- C5 (amended): on every reachable state, `query_status` returns
`unknown` exactly when the thread has no recorded state; a recorded
rejection message short-circuits to `completed` with that message (even
if a new approval record is outstanding); otherwise `pending` is
returned exactly when an approval record is outstanding, and a stale
interrupt with no tracked record yields `completed` with the generic
closing message. -/
theorem query_status_amended (st : ApiState) (tid : String) (cid : Int) (hR : Reach st) :
    ((get_thread_status st tid cid).1 = "unknown" ↔ alookup st.threads tid = none)
    ∧ (alookup st.rejected_responses tid = none →
        ((get_thread_status st tid cid).1 = "pending"
          ↔ (alookup st.pending_approvals tid).isSome = true))
    ∧ (∀ m, alookup st.rejected_responses tid = some m →
        get_thread_status st tid cid = ("completed", m))
    ∧ (∀ g, alookup st.rejected_responses tid = none →
        alookup st.pending_approvals tid = none →
        alookup st.threads tid = some g → g.next ≠ none →
        get_thread_status st tid cid = ("completed", stale_completed_message)) := by
  obtain ⟨hT, hP, hRj⟩ := reach_storeOK hR
  refine ⟨?_, ?_, ?_, ?_⟩
  · constructor
    · intro h
      by_contra hne
      obtain ⟨g, hg⟩ : ∃ g, alookup st.threads tid = some g := by
        cases hth : alookup st.threads tid with
        | none => exact absurd hth hne
        | some g => exact ⟨g, rfl⟩
      have hgm := hT tid g hg
      cases hrej : alookup st.rejected_responses tid with
      | some m => simp [get_thread_status, hrej] at h
      | none =>
        cases hpend : alookup st.pending_approvals tid with
        | some r => simp [get_thread_status, hrej, hpend] at h
        | none =>
          cases hgn : g.next with
          | none => simp [get_thread_status, hrej, hpend, hg, hgm, hgn] at h
          | some n => simp [get_thread_status, hrej, hpend, hg, hgm, hgn] at h
    · intro h
      have hrej : alookup st.rejected_responses tid = none := by
        cases hrej : alookup st.rejected_responses tid with
        | none => rfl
        | some m =>
          have := hRj tid m hrej
          rw [h] at this
          exact absurd this (by simp)
      have hpend : alookup st.pending_approvals tid = none := by
        cases hpend : alookup st.pending_approvals tid with
        | none => rfl
        | some r =>
          have := hP tid r hpend
          rw [h] at this
          exact absurd this (by simp)
      simp [get_thread_status, hrej, hpend, h]
  · intro hrej
    constructor
    · intro h
      by_contra hns
      have hpend : alookup st.pending_approvals tid = none := by
        cases hpend : alookup st.pending_approvals tid with
        | none => rfl
        | some r => exact absurd (by rw [hpend]; rfl) hns
      cases hth : alookup st.threads tid with
      | none => simp [get_thread_status, hrej, hpend, hth] at h
      | some g =>
        have hgm := hT tid g hth
        cases hgn : g.next with
        | none => simp [get_thread_status, hrej, hpend, hth, hgm, hgn] at h
        | some n => simp [get_thread_status, hrej, hpend, hth, hgm, hgn] at h
    · intro h
      obtain ⟨r, hr⟩ : ∃ r, alookup st.pending_approvals tid = some r := by
        cases hpend : alookup st.pending_approvals tid with
        | none => rw [hpend] at h; exact absurd h (by simp)
        | some r => exact ⟨r, rfl⟩
      simp [get_thread_status, hrej, hr]
  · intro m hm
    simp [get_thread_status, hm]
  · intro g h1 h2 h3 h4
    simp [get_thread_status, h1, h2, h3, hT tid g h3, h4]

/-- C5 (amended) witness: the concretely interrupted thread (no rejection
recorded yet) polls as `pending`. -/
theorem query_status_amended_witness :
    (get_thread_status stInterrupted "t1" 16).1 = "pending" :=
  ((query_status_amended stInterrupted "t1" 16
      (Reach.chat dbX 10 interruptEvs false initialApiState "t1" 16
        "I want a refund for invoice 143" Reach.init)).2.1
    (by decide)).mpr (by decide)

end MusicStore
